import Mathlib

/-!
Verification of the PsyMP3 threading-pattern static-analysis scripts.

This file shallowly embeds the two Python scripts
`scripts/check_threading_patterns.py` (namespace `Chk`) and
`scripts/analyze_threading_safety.py` (namespace `Ana`) as executable Lean
functions over `List Char` (Python `str`), and proves/refutes the spec claims
about them.

Python regular-expression searches are embedded as hand-translated matchers.
Each matcher implements `re.search` semantics (leftmost match, greedy
quantifiers) for the one fixed pattern it models; all patterns used by the
scripts are such that greedy matching never needs to backtrack through a
character class (every `X*`/`X+` is followed by a character outside the class
X), except for the explicitly handled optional groups, so maximal-munch
scanning is exact.  Characters are treated as ASCII (the scanned C++ sources),
matching Python `\w` = `[A-Za-z0-9_]`, `\s` = ASCII whitespace on that input
class.
-/

namespace PyStr

/-- Python `\w` on ASCII input: letters, digits, underscore. -/
def isWordChar (c : Char) : Bool :=
  c.isAlpha || c.isDigit || c = '_'

/-- Python `\s` / `str.strip` whitespace on ASCII input. -/
def isSpaceChar (c : Char) : Bool :=
  c = ' ' || c = '\t' || c = '\n' || c = '\r' || c = '\x0b' || c = '\x0c'

/-- The apostrophe character (U+0027). -/
def sq : Char := Char.ofNat 39

/-- Opening curly brace. -/
def lbrace : Char := Char.ofNat 123

/-- Closing curly brace. -/
def rbrace : Char := Char.ofNat 125

/-- Python `str.strip()`. -/
def pstrip (l : List Char) : List Char :=
  ((l.dropWhile isSpaceChar).reverse.dropWhile isSpaceChar).reverse

/-- Python `str.split('\n')`. -/
def splitLines : List Char → List (List Char)
  | [] => [[]]
  | c :: cs =>
    if c = '\n' then [] :: splitLines cs
    else
      match splitLines cs with
      | [] => [[c]]
      | l :: ls => (c :: l) :: ls

/-- Python `'\n'.join(...)`. -/
def joinNl : List (List Char) → List Char
  | [] => []
  | [l] => l
  | l :: ls => l ++ '\n' :: joinNl ls

/-- Python slice `xs[a:b]` for non-negative `a`, `b`. -/
def pySlice (xs : List (List Char)) (a b : Nat) : List (List Char) :=
  (xs.drop a).take (b - a)

/-- Whether `pat` occurs as a contiguous substring of `s`
(`re.search` on a pattern of plain literal characters). -/
def containsSub (pat : List Char) : List Char → Bool
  | [] => pat.isPrefixOf ([] : List Char)
  | s@(_ :: rest) => pat.isPrefixOf s || containsSub pat rest

/-- Number of (possibly overlapping) occurrences of `pat` in `s`. -/
def countSub (pat : List Char) : List Char → Nat
  | [] => if pat.isPrefixOf ([] : List Char) then 1 else 0
  | s@(_ :: rest) =>
    (if pat.isPrefixOf s then 1 else 0) + countSub pat rest

/-- `re.search` driver for a boolean match-at-position function:
try the matcher at every start position, left to right. -/
def searchB (m : List Char → Bool) : List Char → Bool
  | [] => m []
  | s@(_ :: rest) => m s || searchB m rest

/-- `re.search` driver for a capturing match-at-position function:
first (leftmost) successful match wins. -/
def searchO {α : Type} (m : List Char → Option α) : List Char → Option α
  | [] => m []
  | s@(_ :: rest) =>
    match m s with
    | some a => some a
    | none => searchO m rest

/-- Match a literal, returning the rest of the input. -/
def stripLit (pat s : List Char) : Option (List Char) :=
  if pat.isPrefixOf s then some (s.drop pat.length) else none

/-- First character satisfies the given test. -/
def headIs (p : Char → Bool) : List Char → Bool
  | [] => false
  | c :: _ => p c

end PyStr

open PyStr

/-- `Severity` enum of `check_threading_patterns.py`. -/
inductive Severity where
  | error
  | warning
  | info
deriving DecidableEq, Repr

/-- The `ThreadingIssue` dataclass of `check_threading_patterns.py`. -/
structure ThreadingIssue where
  severity : Severity
  file_path : List Char
  line_number : Nat
  message : List Char
  suggestion : Option (List Char)
  rule_id : List Char
deriving DecidableEq, Repr

/-- A Python runtime exception, as far as the scripts can raise one on the
string-processing path: the `ValueError` raised by unpacking a plain string
into a 2-tuple. -/
inductive PyError where
  | valueError
deriving DecidableEq, Repr

/-! ### Shared method-signature matcher

Both scripts look for method declarations with the identical pattern
`(\w+)\s*\([^)]*\)\s*(?:const)?\s*[{;]` and use group 1. -/

/-- Access-specifier state (`current_access` in both scripts). -/
inductive Access where
  | pub
  | priv
  | prot
deriving DecidableEq, Repr

/-- The part of the method-signature pattern after the identifier:
`\s*\([^)]*\)\s*(?:const)?\s*[{;]`, matched against the rest of the line.
The greedy `\s*` and `[^)]*` never need to backtrack (each is followed by a
character outside its class); the optional `(?:const)?` is tried with the
literal first, then without, exactly as Python does. -/
def sigTail (r1 : List Char) : Bool :=
  match r1.dropWhile isSpaceChar with
  | '(' :: r3 =>
    let (_, r4) := r3.span (fun c => c != ')')
    match r4 with
    | ')' :: r5 =>
      let r6 := r5.dropWhile isSpaceChar
      ("const".data.isPrefixOf r6 &&
          headIs (fun c => c = lbrace || c = ';')
            ((r6.drop 5).dropWhile isSpaceChar)) ||
        headIs (fun c => c = lbrace || c = ';') r6
    | _ => false
  | _ => false

/-- Match-at-position for `(\w+)\s*\([^)]*\)\s*(?:const)?\s*[{;]`,
returning group 1 (the identifier): a nonempty maximal word run followed by
a `sigTail` match. -/
def matchSigAt (s : List Char) : Option (List Char) :=
  let (w, r1) := s.span isWordChar
  if !w.isEmpty && sigTail r1 then some w else none

/-- `re.search` of the method-signature pattern on a line, returning group 1
of the leftmost match. -/
def searchSig : List Char → Option (List Char) := searchO matchSigAt

namespace Chk

/-! ## Embedding of `scripts/check_threading_patterns.py` -/

/-- Match-at-position for `(\w+)\.lock\(\)`. -/
def matchDotLockAt (s : List Char) : Bool :=
  let (w, r) := s.span isWordChar
  !w.isEmpty && ".lock()".data.isPrefixOf r

/-- Match-at-position for
`std::<kw><[^>]+>\s+\w+\(([^)]+)\)` with `kw` one of
`lock_guard`, `unique_lock`, `shared_lock` (checker variant: the
constructor argument is `[^)]+`). -/
def matchGuardChkAt (kw : List Char) (s : List Char) : Bool :=
  match stripLit ("std::".data ++ kw ++ ['<']) s with
  | none => false
  | some r0 =>
    let (targ, r1) := r0.span (fun c => c != '>')
    !targ.isEmpty &&
      match r1 with
      | '>' :: r2 =>
        let (sp, r3) := r2.span isSpaceChar
        !sp.isEmpty &&
          (let (w, r4) := r3.span isWordChar
           !w.isEmpty &&
             match r4 with
             | '(' :: r5 =>
               let (arg, r6) := r5.span (fun c => c != ')')
               !arg.isEmpty && headIs (fun c => c = ')') r6
             | _ => false)
      | _ => false

/-- Match-at-position for `pthread_mutex_lock\(&(\w+)\)`. -/
def matchPthreadLockAt (s : List Char) : Bool :=
  match stripLit "pthread_mutex_lock(&".data s with
  | none => false
  | some r =>
    let (w, r1) := r.span isWordChar
    !w.isEmpty && headIs (fun c => c = ')') r1

/-- Match-at-position for `SDL_LockMutex\((\w+)\)`. -/
def matchSDLLockMutexAt (s : List Char) : Bool :=
  match stripLit "SDL_LockMutex(".data s with
  | none => false
  | some r =>
    let (w, r1) := r.span isWordChar
    !w.isEmpty && headIs (fun c => c = ')') r1

/-- Match-at-position for `SDL_LockSurface\([^)]+\)` (checker variant,
with the closing parenthesis required). -/
def matchSDLLockSurfaceAt (s : List Char) : Bool :=
  match stripLit "SDL_LockSurface(".data s with
  | none => false
  | some r =>
    let (arg, r1) := r.span (fun c => c != ')')
    !arg.isEmpty && headIs (fun c => c = ')') r1

/-- `re.search` of each of the seven `lock_acquisition_patterns`, in list
order (the second tuple component of each entry is a display tag the control
flow never reads). -/
def lock_acquisition_searches : List (List Char → Bool) :=
  [ searchB matchDotLockAt
  , searchB (matchGuardChkAt "lock_guard".data)
  , searchB (matchGuardChkAt "unique_lock".data)
  , searchB (matchGuardChkAt "shared_lock".data)
  , searchB matchPthreadLockAt
  , searchB matchSDLLockMutexAt
  , searchB matchSDLLockSurfaceAt ]

/-- `any(re.search(pattern, s) for pattern, _ in self.lock_acquisition_patterns)`. -/
def anyLockAcquisition (s : List Char) : Bool :=
  lock_acquisition_searches.any (fun f => f s)

/-- `sum(1 for pattern, _ in self.lock_acquisition_patterns if re.search(pattern, s))`. -/
def countLockAcquisition (s : List Char) : Nat :=
  lock_acquisition_searches.countP (fun f => f s)

/-- Match-at-position for `(\w+)\.unlock\(\)`. -/
def matchDotUnlockAt (s : List Char) : Bool :=
  let (w, r) := s.span isWordChar
  !w.isEmpty && ".unlock()".data.isPrefixOf r

/-- Match-at-position for `pthread_mutex_unlock\(&(\w+)\)`. -/
def matchPthreadUnlockAt (s : List Char) : Bool :=
  match stripLit "pthread_mutex_unlock(&".data s with
  | none => false
  | some r =>
    let (w, r1) := r.span isWordChar
    !w.isEmpty && headIs (fun c => c = ')') r1

/-- Match-at-position for `SDL_UnlockMutex\((\w+)\)`. -/
def matchSDLUnlockMutexAt (s : List Char) : Bool :=
  match stripLit "SDL_UnlockMutex(".data s with
  | none => false
  | some r =>
    let (w, r1) := r.span isWordChar
    !w.isEmpty && headIs (fun c => c = ')') r1

/-- Match-at-position for `SDL_UnlockSurface\([^)]+\)`. -/
def matchSDLUnlockSurfaceAt (s : List Char) : Bool :=
  match stripLit "SDL_UnlockSurface(".data s with
  | none => false
  | some r =>
    let (arg, r1) := r.span (fun c => c != ')')
    !arg.isEmpty && headIs (fun c => c = ')') r1

/-- `re.search` of each of the four `manual_unlock_patterns`, in list order. -/
def manual_unlock_searches : List (List Char → Bool) :=
  [ searchB matchDotUnlockAt
  , searchB matchPthreadUnlockAt
  , searchB matchSDLUnlockMutexAt
  , searchB matchSDLUnlockSurfaceAt ]

/-- The three entries of `self.mutex_declaration_patterns`: a plain list of
regex source strings (not `(pattern, tag)` tuples). -/
def mutex_declaration_patterns : List (List Char) :=
  [ "std::(mutex|shared_mutex|recursive_mutex)\\s+(\\w+)".data
  , "pthread_mutex_t\\s+(\\w+)".data
  , "SDL_mutex\\s*\\*\\s*(\\w+)".data ]

/-- Python tuple unpacking `pattern, _ = s` of a string `s`: succeeds exactly
when the string has two characters, otherwise raises `ValueError`. -/
def unpackPair (s : List Char) : Except PyError (Char × Char) :=
  match s with
  | [a, b] => Except.ok (a, b)
  | _ => Except.error PyError.valueError

/-- One pull of the generator on line 150,
`re.search(pattern, class_content) for pattern, _ in self.mutex_declaration_patterns`:
unpack the entry (a full regex string) into a 2-tuple — which raises
`ValueError` — and, were that to succeed, search for the resulting
single character. -/
def hasMutexStep (cc : List Char) (s : List Char) : Except PyError Bool := do
  let pu ← unpackPair s
  pure (containsSub [pu.1] cc)

/-- `any(...)` over an exception-throwing generator: pull until a `True` or
until the generator raises. -/
def anyExcept (f : List Char → Except PyError Bool) : List (List Char) → Except PyError Bool
  | [] => Except.ok false
  | s :: rest => do
    let b ← f s
    if b then pure true else anyExcept f rest

/-- Line 150 of `check_threading_patterns.py`:
`has_mutex = any(re.search(pattern, class_content) for pattern, _ in self.mutex_declaration_patterns)`.
Because `mutex_declaration_patterns` holds plain strings, the `pattern, _`
unpacking raises `ValueError` on the first pull. -/
def has_mutex (cc : List Char) : Except PyError Bool :=
  anyExcept (hasMutexStep cc) mutex_declaration_patterns

/-- Match-at-position for `std::(mutex|shared_mutex|recursive_mutex)\s+(\w+)`
(boolean).  The three alternatives begin with distinct characters, so at most
one can apply at a given position. -/
def matchStdMutexDeclAt (s : List Char) : Bool :=
  match stripLit "std::".data s with
  | none => false
  | some r0 =>
    let afterKw : Option (List Char) :=
      match stripLit "mutex".data r0 with
      | some r => some r
      | none =>
        match stripLit "shared_mutex".data r0 with
        | some r => some r
        | none => stripLit "recursive_mutex".data r0
    match afterKw with
    | none => false
    | some r1 =>
      let (sp, r2) := r1.span isSpaceChar
      !sp.isEmpty && headIs isWordChar r2

/-- Match-at-position for `pthread_mutex_t\s+(\w+)` (boolean). -/
def matchPthreadDeclAt (s : List Char) : Bool :=
  match stripLit "pthread_mutex_t".data s with
  | none => false
  | some r0 =>
    let (sp, r1) := r0.span isSpaceChar
    !sp.isEmpty && headIs isWordChar r1

/-- Match-at-position for `SDL_mutex\s*\*\s*(\w+)` (boolean). -/
def matchSDLMutexDeclAt (s : List Char) : Bool :=
  match stripLit "SDL_mutex".data s with
  | none => false
  | some r0 =>
    match r0.dropWhile isSpaceChar with
    | '*' :: r1 => headIs isWordChar (r1.dropWhile isSpaceChar)
    | _ => false

/-- Modelled from the spec: the mutex-membership test that line 150 clearly
intends — `re.search` of each of the three mutex-declaration patterns over
the class body.  The code as written instead raises `ValueError` while
unpacking the pattern strings (see `has_mutex`). -/
def spec_has_mutex (cc : List Char) : Bool :=
  searchB matchStdMutexDeclAt cc || searchB matchPthreadDeclAt cc ||
    searchB matchSDLMutexDeclAt cc

/-- The access-specifier update of `find_public_lock_methods` (lines 184-189):
`public:` prefix switches to public, `private:`/`protected:` to private;
any other line leaves the state alone (`none`). -/
def fplm_access_update (ls : List Char) : Option Access :=
  if "public:".data.isPrefixOf ls then some Access.pub
  else if "private:".data.isPrefixOf ls || "protected:".data.isPrefixOf ls then
    some Access.priv
  else none

/-- `method_acquires_locks`: search the seven lock-acquisition patterns in the
`'\n'`-joined window `lines[max(0, start_line-2) : min(len(lines), start_line+20)]`
of the class body.  The `method_name` parameter is accepted and ignored,
as in the source. -/
def method_acquires_locks (class_content : List Char) (_method_name : List Char)
    (start_line : Nat) : Bool :=
  let lines := splitLines class_content
  let context := joinNl (pySlice lines (start_line - 2) (start_line + 20))
  anyLockAcquisition context

/-- The per-line body of `find_public_lock_methods` after the access-specifier
branches: in the public section, match a method signature, skip destructor
names, the word `operator`, and identifiers with an uppercase first letter
("likely constructor"), and record the method when its window contains a
lock acquisition. -/
def fplmLine (cc : List Char) (a : Access) (i : Nat) (ls : List Char) :
    List (List Char × Nat) :=
  if a = Access.pub then
    match searchSig ls with
    | some name =>
      if "~".data.isPrefixOf name || name = "operator".data ||
          (name.headD ' ').isUpper then []
      else if method_acquires_locks cc name i then [(name, i + 1)] else []
    | none => []
  else []

/-- The `for i, line in enumerate(lines)` loop of `find_public_lock_methods`. -/
def fplmAux (cc : List Char) : Access → Nat → List (List Char) → List (List Char × Nat)
  | _, _, [] => []
  | a, i, l :: rest =>
    let ls := pstrip l
    match fplm_access_update ls with
    | some a2 => fplmAux cc a2 (i + 1) rest
    | none => fplmLine cc a i ls ++ fplmAux cc a (i + 1) rest

/-- `find_public_lock_methods(class_content)`: `(method_name, line_number)`
pairs, initial access private. -/
def find_public_lock_methods (cc : List Char) : List (List Char × Nat) :=
  fplmAux cc Access.priv 0 (splitLines cc)

/-- The access-specifier update of `find_private_unlocked_methods`
(three separate branches, so `protected:` is tracked as protected here). -/
def fpum_access_update (ls : List Char) : Option Access :=
  if "public:".data.isPrefixOf ls then some Access.pub
  else if "private:".data.isPrefixOf ls then some Access.priv
  else if "protected:".data.isPrefixOf ls then some Access.prot
  else none

/-- Match-at-position for `(\w+_unlocked)\s*\([^)]*\)`, returning group 1.
A match forces the `\w+` run to end exactly at the `_unlocked` suffix
(anything shorter leaves a word character where `\s*\(` must start), so the
capture is the maximal word run, which must end in `_unlocked` and be at
least one character longer than the suffix. -/
def matchUnlockedAt (s : List Char) : Option (List Char) :=
  let (w, r1) := s.span isWordChar
  if decide (10 ≤ w.length) && "_unlocked".data.isSuffixOf w then
    match r1.dropWhile isSpaceChar with
    | '(' :: r3 =>
      let (_, r4) := r3.span (fun c => c != ')')
      match r4 with
      | ')' :: _ => some w
      | _ => none
    | _ => none
  else none

/-- The `for line in lines` loop of `find_private_unlocked_methods`.
The Python set of names is modelled as the list of recorded names;
the script only ever tests membership. -/
def fpumAux : Access → List (List Char) → List (List Char)
  | _, [] => []
  | a, l :: rest =>
    let ls := pstrip l
    match fpum_access_update ls with
    | some a2 => fpumAux a2 rest
    | none =>
      (if a = Access.priv then
        match searchO matchUnlockedAt ls with
        | some name => [name]
        | none => []
      else []) ++ fpumAux a rest

/-- `find_private_unlocked_methods(class_content)`. -/
def find_private_unlocked_methods (cc : List Char) : List (List Char) :=
  fpumAux Access.priv (splitLines cc)

/-- Message of a `MISSING_UNLOCKED_METHOD` issue for method `m`. -/
def missing_unlocked_message (m : List Char) : List Char :=
  "Public method ".data ++ [sq] ++ m ++ [sq] ++
    " acquires locks but has no private ".data ++ [sq] ++ m ++ "_unlocked".data ++
    [sq] ++ " counterpart".data

/-- Suggestion of a `MISSING_UNLOCKED_METHOD` issue for method `m`. -/
def missing_unlocked_suggestion (m : List Char) : List Char :=
  "Add private method: ".data ++ m ++
    "_unlocked() that performs the work without acquiring locks".data

/-- The `MISSING_UNLOCKED_METHOD` issue for method `m` at line `ln`. -/
def missing_unlocked_issue (fp m : List Char) (ln : Nat) : ThreadingIssue :=
  ⟨Severity.error, fp, ln, missing_unlocked_message m,
    some (missing_unlocked_suggestion m), "MISSING_UNLOCKED_METHOD".data⟩

/-- Message of a `PUBLIC_CALLS_PUBLIC` issue. -/
def pcp_message (m other : List Char) : List Char :=
  "Public method ".data ++ [sq] ++ m ++ [sq] ++ " may call public method ".data ++
    [sq] ++ other ++ [sq] ++ " - potential deadlock risk".data

/-- Suggestion of a `PUBLIC_CALLS_PUBLIC` issue. -/
def pcp_suggestion (other : List Char) : List Char :=
  "Use ".data ++ [sq] ++ other ++ "_unlocked()".data ++ [sq] ++
    " instead if calling from within the same class".data

/-- The `PUBLIC_CALLS_PUBLIC` issue for method `m` (at `m`'s recorded line)
naming `other`. -/
def pcp_issue (fp : List Char) (ln : Nat) (m other : List Char) : ThreadingIssue :=
  ⟨Severity.warning, fp, ln, pcp_message m other, some (pcp_suggestion other),
    "PUBLIC_CALLS_PUBLIC".data⟩

/-- Match-at-position for the interpolated pattern `rf'{other}\s*\('`
(the method name consists of word characters only, so it is matched
literally). -/
def matchCallAt (other s : List Char) : Bool :=
  other.isPrefixOf s &&
    headIs (fun c => c = '(') ((s.drop other.length).dropWhile isSpaceChar)

/-- `check_public_method_calls`: for every ordered pair of recorded public
lock methods with distinct names, search the whole class body for
`other\s*\(` and, when found, warn at the first method's line. -/
def check_public_method_calls (fp cc : List Char)
    (public_methods : List (List Char × Nat)) : List ThreadingIssue :=
  public_methods.flatMap fun ml =>
    public_methods.flatMap fun ol =>
      if ol.1 ≠ ml.1 then
        if searchB (matchCallAt ol.1) cc then [pcp_issue fp ml.2 ml.1 ol.1]
        else []
      else []

/-- `analyze_class_threading_pattern`: compute `has_mutex` (which raises
`ValueError`, see `has_mutex`), and — on the unreachable success path —
emit a `MISSING_UNLOCKED_METHOD` error for every public lock method without
its `_unlocked` counterpart, then the `PUBLIC_CALLS_PUBLIC` warnings.
The `class_name` parameter is accepted and ignored, as in the source. -/
def analyze_class_threading_pattern (fp _class_name cc : List Char) :
    Except PyError (List ThreadingIssue) := do
  let hm ← has_mutex cc
  if !hm then
    pure []
  else
    let public_lock_methods := find_public_lock_methods cc
    let private_unlocked_methods := find_private_unlocked_methods cc
    let missing := public_lock_methods.flatMap fun ml =>
      if private_unlocked_methods.contains (ml.1 ++ "_unlocked".data) then []
      else [missing_unlocked_issue fp ml.1 ml.2]
    pure (missing ++ check_public_method_calls fp cc public_lock_methods)

/-- Match-at-position for `class\s+(\w+)(?:\s*:\s*[^{]+)?\s*{`, returning
group 1 and the rest of the input after the opening brace (the match end,
where `re.finditer` resumes).  When a base-class list is present the
combined `\s*[^{]+` is any nonempty brace-free run, as the character class
subsumes whitespace. -/
def matchClassHeaderAt (s : List Char) : Option (List Char × List Char) :=
  match stripLit "class".data s with
  | none => none
  | some r0 =>
    let (sp, r1) := r0.span isSpaceChar
    if sp.isEmpty then none
    else
      let (name, r2) := r1.span isWordChar
      if name.isEmpty then none
      else
        match r2.dropWhile isSpaceChar with
        | ':' :: r4 =>
          let (mid, r5) := r4.span (fun c => c != lbrace)
          if mid.isEmpty then none
          else
            match r5 with
            | c :: r6 => if c = lbrace then some (name, r6) else none
            | [] => none
        | c :: r6 => if c = lbrace then some (name, r6) else none
        | [] => none

/-- `re.finditer` of the class-header pattern: leftmost non-overlapping
matches with their start offsets.  Fuel decreases strictly because every
match consumes at least the `class` keyword. -/
def classHeadersAux : Nat → Nat → List Char → List (List Char × Nat)
  | 0, _, _ => []
  | _ + 1, _, [] => []
  | fuel + 1, pos, s@(_ :: rest) =>
    match matchClassHeaderAt s with
    | some (name, restAfter) =>
      (name, pos) ::
        classHeadersAux fuel (pos + (s.length - restAfter.length)) restAfter
    | none => classHeadersAux fuel (pos + 1) rest

/-- All class-header matches of a file's content, with start offsets. -/
def classHeaders (content : List Char) : List (List Char × Nat) :=
  classHeadersAux (content.length + 1) 0 content

/-- The brace walk of `extract_class_content`: position of the closing brace
at which `in_class` holds and the depth returns to zero.  The counter is an
integer because a stray closing brace can drive it negative. -/
def extractAux : Int → Bool → Nat → List Char → Option Nat
  | _, _, _, [] => none
  | bc, inc, i, c :: rest =>
    if c = lbrace then extractAux (bc + 1) true (i + 1) rest
    else if c = rbrace then
      if inc && bc - 1 = 0 then some i else extractAux (bc - 1) inc (i + 1) rest
    else extractAux bc inc (i + 1) rest

/-- `extract_class_content(content, start_pos)`: the slice from `start_pos`
through the matching closing brace, or `None` when no such brace is found
(`class_end > start_pos` fails). -/
def extract_class_content (content : List Char) (start_pos : Nat) :
    Option (List Char) :=
  let tail := content.drop start_pos
  match extractAux 0 false 0 tail with
  | some rel => if 0 < rel then some (tail.take (rel + 1)) else none
  | none => none

/-- The per-header loop of `check_public_private_pattern`; the first
`ValueError` from `analyze_class_threading_pattern` aborts it (nothing was
appended before the raise). -/
def cpppAux (fp content : List Char) :
    List (List Char × Nat) → Except PyError (List ThreadingIssue)
  | [] => Except.ok []
  | (name, start) :: rest =>
    match extract_class_content content start with
    | none => cpppAux fp content rest
    | some cc => do
      let is1 ← analyze_class_threading_pattern fp name cc
      let is2 ← cpppAux fp content rest
      pure (is1 ++ is2)

/-- `check_public_private_pattern(file_path, content, lines)` (the `lines`
argument is unused in the source). -/
def check_public_private_pattern (fp content : List Char) :
    Except PyError (List ThreadingIssue) :=
  cpppAux fp content (classHeaders content)

/-- The `MANUAL_LOCK_UNLOCK` issue at line `ln`. -/
def manual_issue (fp : List Char) (ln : Nat) : ThreadingIssue :=
  ⟨Severity.error, fp, ln,
    "Manual lock/unlock detected - use RAII lock guards instead".data,
    some "Replace with std::lock_guard<std::mutex> lock(mutex_name);".data,
    "MANUAL_LOCK_UNLOCK".data⟩

/-- The RAII check of `check_manual_lock_unlock`:
`re.search(r'std::(lock_guard|unique_lock|shared_lock)', context)` over the
`'\n'`-joined window `lines[max(0, i-10) : min(len(lines), i+10)]` — i.e.
10 lines before through 9 lines after line `i`. -/
def raiiSuppress (lines : List (List Char)) (i : Nat) : Bool :=
  let context := joinNl (pySlice lines (i - 10) (i + 10))
  containsSub "std::lock_guard".data context ||
    containsSub "std::unique_lock".data context ||
    containsSub "std::shared_lock".data context

/-- The per-line body of `check_manual_lock_unlock`: one issue per matching
manual-unlock pattern, unless the RAII window check suppresses them. -/
def manualLineIssues (fp : List Char) (lines : List (List Char)) (i : Nat)
    (l : List Char) : List ThreadingIssue :=
  let ls := pstrip l
  (manual_unlock_searches.filter (fun f => f ls)).flatMap fun _ =>
    if raiiSuppress lines i then [] else [manual_issue fp (i + 1)]

/-- The `for i, line in enumerate(lines)` loop of `check_manual_lock_unlock`. -/
def manualAux (fp : List Char) (lines : List (List Char)) :
    Nat → List (List Char) → List ThreadingIssue
  | _, [] => []
  | i, l :: rest => manualLineIssues fp lines i l ++ manualAux fp lines (i + 1) rest

/-- `check_manual_lock_unlock(file_path, lines)`. -/
def check_manual_lock_unlock (fp : List Char) (lines : List (List Char)) :
    List ThreadingIssue :=
  manualAux fp lines 0 lines

/-- Match-at-position for `lock.*order` / `acquisition.*order` (parameterised
by the leading keyword); `.` does not cross a newline, but the input is a
single line. -/
def lockOrderDocAt (kw : List Char) (s : List Char) : Bool :=
  kw.isPrefixOf s && containsSub "order".data (s.drop kw.length)

/-- `re.search(r'lock.*order|acquisition.*order', line.lower())`. -/
def hasLockOrderDoc (l : List Char) : Bool :=
  let low := l.map Char.toLower
  searchB (lockOrderDocAt "lock".data) low ||
    searchB (lockOrderDocAt "acquisition".data) low

/-- `check_lock_ordering`: flag once, at line 1, when some single line matches
more than one lock-acquisition pattern and no line documents lock order. -/
def check_lock_ordering (fp : List Char) (lines : List (List Char)) :
    List ThreadingIssue :=
  let has_multiple_locks := lines.any (fun l => 1 < countLockAcquisition l)
  let has_lock_order_doc := lines.any hasLockOrderDoc
  if has_multiple_locks && !has_lock_order_doc then
    [⟨Severity.warning, fp, 1,
      "Multiple locks detected but no lock acquisition order documented".data,
      some "Add comment documenting lock acquisition order to prevent deadlocks".data,
      "MISSING_LOCK_ORDER_DOC".data⟩]
  else []

/-- The per-line body of `check_callback_safety`.  (The source also computes
a `has_callback` flag from generic call patterns but never reads it; the
emission condition is a lock match plus the substring `callback`.) -/
def callbackLineIssues (fp : List Char) (i : Nat) (l : List Char) :
    List ThreadingIssue :=
  let ls := pstrip l
  if anyLockAcquisition ls && containsSub "callback".data (ls.map Char.toLower) then
    [⟨Severity.error, fp, i + 1,
      "Potential callback invocation while holding lock - deadlock risk".data,
      some "Release locks before invoking callbacks or queue callbacks for later execution".data,
      "CALLBACK_UNDER_LOCK".data⟩]
  else []

/-- The `for i, line in enumerate(lines)` loop of `check_callback_safety`. -/
def callbackAux (fp : List Char) : Nat → List (List Char) → List ThreadingIssue
  | _, [] => []
  | i, l :: rest => callbackLineIssues fp i l ++ callbackAux fp (i + 1) rest

/-- `check_callback_safety(file_path, lines)`. -/
def check_callback_safety (fp : List Char) (lines : List (List Char)) :
    List ThreadingIssue :=
  callbackAux fp 0 lines

/-- The per-line body of `check_const_method_locking`. -/
def constLineIssues (fp : List Char) (lines : List (List Char)) (i : Nat)
    (l : List Char) : List ThreadingIssue :=
  let ls := pstrip l
  if containsSub "const".data ls && anyLockAcquisition ls then
    let context := joinNl (pySlice lines (i - 20) (i + 5))
    if !containsSub "mutable".data context then
      [⟨Severity.warning, fp, i + 1,
        "Const method acquires lock - ensure mutex is declared as mutable".data,
        some ("Declare mutex as ".data ++ [sq] ++
          "mutable std::mutex mutex_name;".data ++ [sq]),
        "CONST_METHOD_LOCK".data⟩]
    else []
  else []

/-- The `for i, line in enumerate(lines)` loop of `check_const_method_locking`. -/
def constAux (fp : List Char) (lines : List (List Char)) :
    Nat → List (List Char) → List ThreadingIssue
  | _, [] => []
  | i, l :: rest => constLineIssues fp lines i l ++ constAux fp lines (i + 1) rest

/-- `check_const_method_locking(file_path, lines)`. -/
def check_const_method_locking (fp : List Char) (lines : List (List Char)) :
    List ThreadingIssue :=
  constAux fp lines 0 lines

/-- The `FILE_READ_ERROR` issue recorded when `open`/`read` raises;
`e` is the exception text interpolated into the message. -/
def file_read_issue (fp e : List Char) : ThreadingIssue :=
  ⟨Severity.warning, fp, 0, "Could not read file: ".data ++ e, none,
    "FILE_READ_ERROR".data⟩

/-- `check_file(file_path)`.  File input is modelled as
`Except errText content` (the result of the `open`/`read` in the `try`
block).  The returned pair is (issues appended to `self.issues`, in order;
the `ValueError` escaping the call, if any).  On a read failure exactly the
one `FILE_READ_ERROR` warning is appended and the method returns normally. -/
def check_file (fp : List Char) (content : Except (List Char) (List Char)) :
    List ThreadingIssue × Option PyError :=
  match content with
  | Except.error e => ([file_read_issue fp e], none)
  | Except.ok text =>
    let lines := splitLines text
    let i1 := check_manual_lock_unlock fp lines
    match check_public_private_pattern fp text with
    | Except.error pe => (i1, some pe)
    | Except.ok i2 =>
      let i3 := check_lock_ordering fp lines
      let i4 := check_callback_safety fp lines
      let i5 := check_const_method_locking fp lines
      (i1 ++ i2 ++ i3 ++ i4 ++ i5, none)

/-- The `for file_path in files_to_check` loop of `main`, over the files that
exist, each paired with its read outcome: issues accumulate across files and
an uncaught exception aborts the remainder of the loop. -/
def runFiles :
    List (List Char × Except (List Char) (List Char)) →
      List ThreadingIssue × Option PyError
  | [] => ([], none)
  | (fp, c) :: rest =>
    let (is, e) := check_file fp c
    match e with
    | some pe => (is, some pe)
    | none =>
      let (is2, e2) := runFiles rest
      (is ++ is2, e2)

/-- `get_exit_code`: 2 on any error, else 1 on any warning in strict mode,
else 0. -/
def get_exit_code (strict_mode : Bool) (issues : List ThreadingIssue) : Nat :=
  let errors := issues.filter (fun i => i.severity = Severity.error)
  let warnings := issues.filter (fun i => i.severity = Severity.warning)
  if !errors.isEmpty then 2
  else if !warnings.isEmpty && strict_mode then 1
  else 0

/-- `check_file` as it acts on the accumulating `self.issues` state. -/
def check_file_acc (fp : List Char) (content : Except (List Char) (List Char))
    (st : List ThreadingIssue) : List ThreadingIssue × Option PyError :=
  (st ++ (check_file fp content).1, (check_file fp content).2)

end Chk

namespace Ana

/-! ## Embedding of `scripts/analyze_threading_safety.py` -/

/-- Match-at-position for `LEAD\s+(\w+)` (the first four `mutex_patterns`),
returning group 1 and the rest after the match end. -/
def matchMutexCapAt (lead : List Char) (s : List Char) :
    Option (List Char × List Char) :=
  match stripLit lead s with
  | none => none
  | some r0 =>
    let (sp, r1) := r0.span isSpaceChar
    if sp.isEmpty then none
    else
      let (w, r2) := r1.span isWordChar
      if w.isEmpty then none else some (w, r2)

/-- Match-at-position for `SDL_mutex\s*\*\s*(\w+)`, returning group 1 and the
rest after the match end. -/
def matchSDLMutexCapAt (s : List Char) : Option (List Char × List Char) :=
  match stripLit "SDL_mutex".data s with
  | none => none
  | some r0 =>
    match r0.dropWhile isSpaceChar with
    | '*' :: r1 =>
      let (w, r2) := (r1.dropWhile isSpaceChar).span isWordChar
      if w.isEmpty then none else some (w, r2)
    | _ => none

/-- Leftmost match of a capturing matcher, with the rest after its end. -/
def searchCap (m : List Char → Option (List Char × List Char)) :
    List Char → Option (List Char × List Char)
  | [] => m []
  | s@(_ :: rest) =>
    match m s with
    | some r => some r
    | none => searchCap m rest

/-- `re.finditer` collecting group 1 of each non-overlapping match, resuming
after each match end.  Every match consumes at least one character, so fuel
`length + 1` reaches the end of the input. -/
def finditerCaps (m : List Char → Option (List Char × List Char)) :
    Nat → List Char → List (List Char)
  | 0, _ => []
  | fuel + 1, s =>
    match searchCap m s with
    | none => []
    | some (cap, rest) => cap :: finditerCaps m fuel rest

/-- The five `mutex_patterns`, as capturing matchers, in list order. -/
def mutex_pattern_caps : List (List Char → Option (List Char × List Char)) :=
  [ matchMutexCapAt "std::mutex".data
  , matchMutexCapAt "std::shared_mutex".data
  , matchMutexCapAt "std::recursive_mutex".data
  , matchMutexCapAt "pthread_mutex_t".data
  , matchSDLMutexCapAt ]

/-- The mutex-member collection loop of `analyze_class` (lines 114-117):
for each pattern in order, all `finditer` captures over the class body. -/
def mutex_members (cc : List Char) : List (List Char) :=
  mutex_pattern_caps.flatMap fun m => finditerCaps m (cc.length + 1) cc

/-- Match-at-position for
`std::<kw><[^>]+>\s+\w+\((\w+)\)` (analyzer variant: the constructor
argument is `(\w+)`). -/
def matchGuardAnaAt (kw : List Char) (s : List Char) : Bool :=
  match stripLit ("std::".data ++ kw ++ ['<']) s with
  | none => false
  | some r0 =>
    let (targ, r1) := r0.span (fun c => c != '>')
    !targ.isEmpty &&
      match r1 with
      | '>' :: r2 =>
        let (sp, r3) := r2.span isSpaceChar
        !sp.isEmpty &&
          (let (w, r4) := r3.span isWordChar
           !w.isEmpty &&
             match r4 with
             | '(' :: r5 =>
               let (arg, r6) := r5.span isWordChar
               !arg.isEmpty && headIs (fun c => c = ')') r6
             | _ => false)
      | _ => false

/-- The seven `lock_patterns` of the analyzer: regex source string (what
`find_locks_in_method` appends) paired with its `re.search` semantics.
Patterns 1, 5 and 6 coincide with the checker's; the guard patterns take a
`(\w+)` argument and `SDL_LockSurface\(` needs no closing parenthesis. -/
def lock_patterns : List (List Char × (List Char → Bool)) :=
  [ ("(\\w+)\\.lock\\(\\)".data, searchB Chk.matchDotLockAt)
  , ("std::lock_guard<[^>]+>\\s+\\w+\\((\\w+)\\)".data,
      searchB (matchGuardAnaAt "lock_guard".data))
  , ("std::unique_lock<[^>]+>\\s+\\w+\\((\\w+)\\)".data,
      searchB (matchGuardAnaAt "unique_lock".data))
  , ("std::shared_lock<[^>]+>\\s+\\w+\\((\\w+)\\)".data,
      searchB (matchGuardAnaAt "shared_lock".data))
  , ("pthread_mutex_lock\\(&(\\w+)\\)".data, searchB Chk.matchPthreadLockAt)
  , ("SDL_LockMutex\\((\\w+)\\)".data, searchB Chk.matchSDLLockMutexAt)
  , ("SDL_LockSurface\\(".data, containsSub "SDL_LockSurface(".data) ]

/-- `find_locks_in_method(class_content, method_name)`: the source strings of
every lock pattern found anywhere in the class body; the method name is
accepted and ignored, as in the source ("simplified implementation"). -/
def find_locks_in_method (cc : List Char) (_method_name : List Char) :
    List (List Char) :=
  lock_patterns.filterMap fun pm => if pm.2 cc then some pm.1 else none

/-- The `LockUsage` dataclass. -/
structure LockUsage where
  method_name : List Char
  is_public : Bool
  lock_types : List (List Char)
  line_number : Nat
  file_path : List Char
deriving DecidableEq, Repr

/-- The `ClassAnalysis` dataclass. -/
structure ClassAnalysis where
  class_name : List Char
  file_path : List Char
  mutex_members : List (List Char)
  public_lock_methods : List LockUsage
  private_unlocked_methods : List (List Char)
  potential_deadlocks : List (List Char)
deriving DecidableEq, Repr

/-- The access-specifier update of `analyze_class` (lines 127-135): three
separate branches, each `continue`ing. -/
def access_update (ls : List Char) : Option Access :=
  if "public:".data.isPrefixOf ls then some Access.pub
  else if "private:".data.isPrefixOf ls then some Access.priv
  else if "protected:".data.isPrefixOf ls then some Access.prot
  else none

/-- The per-line body of `analyze_class` after the access branches (lines
137-164): match a method signature; skip the class name itself, destructor
names and the word `operator`; on a lock-pattern hit build a `LockUsage`
appended to `public_lock_methods` only in the public section; and in the
private section record names ending in `_unlocked`.  Returns the two
contributions `(to public_lock_methods, to private_unlocked_methods)`. -/
def analyzeLine (cn fp cc : List Char) (a : Access) (i : Nat) (ls : List Char) :
    List LockUsage × List (List Char) :=
  match searchSig ls with
  | none => ([], [])
  | some name =>
    if name = cn || "~".data.isPrefixOf name || name = "operator".data then
      ([], [])
    else
      let lock_types := find_locks_in_method cc name
      ((if !lock_types.isEmpty && a == Access.pub then
          [⟨name, a == Access.pub, lock_types, i + 1, fp⟩]
        else []),
       (if a == Access.priv && "_unlocked".data.isSuffixOf name then [name]
        else []))

/-- The `for i, line in enumerate(lines)` loop of `analyze_class`. -/
def analyzeAux (cn fp cc : List Char) :
    Access → Nat → List (List Char) → List LockUsage × List (List Char)
  | _, _, [] => ([], [])
  | a, i, l :: rest =>
    let ls := pstrip l
    match access_update ls with
    | some a2 => analyzeAux cn fp cc a2 (i + 1) rest
    | none =>
      let cur := analyzeLine cn fp cc a i ls
      let r := analyzeAux cn fp cc a (i + 1) rest
      (cur.1 ++ r.1, cur.2 ++ r.2)

/-- `', '.join(...)`. -/
def commaJoin : List (List Char) → List Char
  | [] => []
  | [m] => m
  | m :: ms => m ++ ", ".data ++ commaJoin ms

/-- Message of the multiple-mutexes finding. -/
def multiple_mutexes_message (mm : List (List Char)) : List Char :=
  "Class has multiple mutexes (".data ++ commaJoin mm ++
    ") - verify lock acquisition order".data

/-- `find_potential_deadlocks(analysis)`, taking the three fields it reads.
The missing-counterpart message text coincides with the checker's. -/
def find_potential_deadlocks (plm : List LockUsage) (pum mm : List (List Char)) :
    List (List Char) :=
  (plm.flatMap fun lu =>
    if pum.contains (lu.method_name ++ "_unlocked".data) then []
    else [Chk.missing_unlocked_message lu.method_name]) ++
    (if 1 < mm.length then [multiple_mutexes_message mm] else [])

/-- `analyze_class(class_name, file_path, class_content, offset)`: build the
`ClassAnalysis` and store it in `self.classes` (modelled as `some`) exactly
when it has a mutex member or a public lock method; the `offset` parameter is
unused in the source. -/
def analyze_class (cn fp cc : List Char) (_offset : Nat) : Option ClassAnalysis :=
  let mm := mutex_members cc
  let r := analyzeAux cn fp cc Access.priv 0 (splitLines cc)
  let analysis : ClassAnalysis :=
    ⟨cn, fp, mm, r.1, r.2, find_potential_deadlocks r.1 r.2 mm⟩
  if !mm.isEmpty || !r.1.isEmpty then some analysis else none

end Ana

/-! ## Helper lemmas -/

/-- Emptiness of a decidable filter as a universal statement. -/
theorem filter_decide_isEmpty {α : Type} (p : α → Prop) [DecidablePred p]
    (l : List α) :
    (l.filter (fun a => decide (p a))).isEmpty = true ↔ ∀ a ∈ l, ¬ p a := by
  simp [List.isEmpty_iff, List.filter_eq_nil_iff]

/-! ## Claim C2: exit-code policy -/

/-- **C2.** For every issue list and strict-mode flag, `get_exit_code` returns
2 iff an Error-severity issue is present; 1 iff no Error is present but a
Warning is and strict mode is on; and 0 otherwise. -/
theorem C2_exit_code (strict : Bool) (issues : List ThreadingIssue) :
    (Chk.get_exit_code strict issues = 2 ↔
      ∃ i ∈ issues, i.severity = Severity.error) ∧
    (Chk.get_exit_code strict issues = 1 ↔
      (¬ ∃ i ∈ issues, i.severity = Severity.error) ∧
        (∃ i ∈ issues, i.severity = Severity.warning) ∧ strict = true) ∧
    (Chk.get_exit_code strict issues = 0 ↔
      (¬ ∃ i ∈ issues, i.severity = Severity.error) ∧
        ¬ ((∃ i ∈ issues, i.severity = Severity.warning) ∧ strict = true)) := by
  have he := filter_decide_isEmpty
    (fun i : ThreadingIssue => i.severity = Severity.error) issues
  have hw := filter_decide_isEmpty
    (fun i : ThreadingIssue => i.severity = Severity.warning) issues
  unfold Chk.get_exit_code
  by_cases hE : ∃ i ∈ issues, i.severity = Severity.error
  · have hEb :
        (issues.filter (fun i => decide (i.severity = Severity.error))).isEmpty
          = false := by
      rcases h : (issues.filter
          (fun i => decide (i.severity = Severity.error))).isEmpty with _ | _
      · exact h
      · exfalso
        obtain ⟨i, hi, hsev⟩ := hE
        exact (he.mp h) i hi hsev
    simp [hEb, hE]
  · have hEb :
        (issues.filter (fun i => decide (i.severity = Severity.error))).isEmpty
          = true := by
      apply he.mpr
      intro a ha hpa
      exact hE ⟨a, ha, hpa⟩
    by_cases hW : ∃ i ∈ issues, i.severity = Severity.warning
    · have hWb :
          (issues.filter
            (fun i => decide (i.severity = Severity.warning))).isEmpty = false := by
        rcases h : (issues.filter
            (fun i => decide (i.severity = Severity.warning))).isEmpty with _ | _
        · exact h
        · exfalso
          obtain ⟨i, hi, hsev⟩ := hW
          exact (hw.mp h) i hi hsev
      rcases strict with _ | _ <;> simp [hEb, hWb, hE, hW]
    · have hWb :
          (issues.filter
            (fun i => decide (i.severity = Severity.warning))).isEmpty = true := by
        apply hw.mpr
        intro a ha hpa
        exact hW ⟨a, ha, hpa⟩
      rcases strict with _ | _ <;> simp [hEb, hWb, hE, hW]

/-! ## Claim C8: read-failure tolerance -/

/-- **C8.** For a file whose read fails (with exception text `e`),
`check_file` records exactly the one `FILE_READ_ERROR` Warning for that file,
raises nothing (second component `none`), and the main loop goes on to
process the remaining files unchanged. -/
theorem C8_read_failure (fp e : List Char)
    (rest : List (List Char × Except (List Char) (List Char))) :
    Chk.check_file fp (Except.error e) = ([Chk.file_read_issue fp e], none) ∧
    (Chk.file_read_issue fp e).severity = Severity.warning ∧
    (Chk.file_read_issue fp e).rule_id = "FILE_READ_ERROR".data ∧
    Chk.runFiles ((fp, Except.error e) :: rest) =
      (Chk.file_read_issue fp e :: (Chk.runFiles rest).1,
        (Chk.runFiles rest).2) := by
  refine ⟨rfl, rfl, rfl, ?_⟩
  simp [Chk.runFiles, Chk.check_file]

/-! ## Claim C9: determinism -/

/-- **C9.** Checking is deterministic: the issue sequence `check_file`
appends to the accumulating issue list — every field included, in order —
and the escaping exception, if any, depend only on the file text, not on the
prior state; hence two runs on the same text append identical issue
sequences. -/
theorem C9_determinism (fp : List Char)
    (content : Except (List Char) (List Char))
    (s1 s2 : List ThreadingIssue) :
    (Chk.check_file_acc fp content s1).1.drop s1.length =
      (Chk.check_file_acc fp content s2).1.drop s2.length ∧
    (Chk.check_file_acc fp content s1).2 =
      (Chk.check_file_acc fp content s2).2 := by
  constructor
  · simp [Chk.check_file_acc, List.drop_left]
  · rfl

/-! ## Claims C1 and C10: the class-analysis rule engine of the enhanced
checker is unreachable — line 150 raises `ValueError` -/

/-- Concrete class body for C1 — the spec's own scenario: a mutex member, a
public method `foo` whose lock-search window contains a lock-guard
construction, and no private `foo_unlocked`. -/
def C1input : List Char :=
  "class FileHandle \x7b\npublic:\n    void foo() \x7b\n        std::lock_guard<std::mutex> g(m);\n    \x7d\nprivate:\n    std::mutex m;\n\x7d".data

/-- Concrete class body for C10: public method `draw` whose window matches a
lock-acquisition construct, and no mutex-member declaration at all. -/
def C10input : List Char :=
  "class Viewer \x7b\npublic:\n    void draw() \x7b\n        SDL_LockSurface(surf);\n    \x7d\n\x7d".data

set_option maxHeartbeats 2000000 in
/-- **C1 (code bug).** On the spec's own scenario — mutex member present
(`spec_has_mutex` confirms the intended line-150 test would succeed), public
lock method `foo` recorded, no private `foo_unlocked` — the checker emits no
`MISSING_UNLOCKED_METHOD` issue at all: `analyze_class_threading_pattern`
raises `ValueError` while computing `has_mutex` (line 150 unpacks the plain
pattern strings of `mutex_declaration_patterns` as 2-tuples), and the
exception escapes `check_file`. -/
theorem C1_line150_crash :
    Chk.spec_has_mutex C1input = true ∧
    ("foo".data, 3) ∈ Chk.find_public_lock_methods C1input ∧
    "foo_unlocked".data ∉ Chk.find_private_unlocked_methods C1input ∧
    Chk.analyze_class_threading_pattern "f.h".data "FileHandle".data C1input =
      Except.error PyError.valueError ∧
    (Chk.check_file "f.h".data (Except.ok C1input)).2 =
      some PyError.valueError :=
  ⟨rfl, by decide, by decide, rfl, rfl⟩

set_option maxHeartbeats 2000000 in
/-- **C10 (code bug).** A class region with no mutex-member declaration
(`spec_has_mutex` is false) and a public method matching a lock-acquisition
construct indeed yields no class-level issue — but not by the intended
`if not has_mutex: return` guard: `analyze_class_threading_pattern` raises
`ValueError` at line 150 before the guard can run, and the exception escapes
`check_file`, aborting the scan instead of skipping the class. -/
theorem C10_line150_crash :
    Chk.spec_has_mutex C10input = false ∧
    ("draw".data, 3) ∈ Chk.find_public_lock_methods C10input ∧
    Chk.analyze_class_threading_pattern "v.h".data "Viewer".data C10input =
      Except.error PyError.valueError ∧
    (Chk.check_file "v.h".data (Except.ok C10input)).2 =
      some PyError.valueError :=
  ⟨rfl, by decide, rfl, rfl⟩

/-! ## Claim C4: access-specifier switching -/

/-- Concrete class body for C4: no line is, after trimming, *equal* to an
access-specifier label, yet the state switches on the combined line
`public: int getv() const;`. -/
def C4input : List Char :=
  "class C \x7b\npublic: int getv() const;\nmu.lock();\nstd::mutex mu;\n\x7d".data

set_option maxHeartbeats 1000000 in
/-- **C4 counterexample.** The claim says the scanners switch access state
exactly on lines whose trimmed text *equals* a label.  But both scanners test
`str.startswith`: on `public: int getv() const;` — equal to no label — the
state switches to public (and the line's method signature is never
inspected), observably: the analyzer records the subsequent `mu.lock();`
line's `lock` identifier as a *public* lock method, and so does the checker;
under the claim no line could ever have switched the state away from the
initial private. -/
theorem C4_counterexample :
    (∀ l ∈ splitLines C4input,
      ¬(pstrip l = "public:".data ∨ pstrip l = "private:".data ∨
          pstrip l = "protected:".data)) ∧
    Ana.access_update (pstrip "public: int getv() const;".data) =
      some Access.pub ∧
    Chk.fplm_access_update (pstrip "public: int getv() const;".data) =
      some Access.pub ∧
    ((Ana.analyze_class "C".data "t.h".data C4input 0).map
        (fun a => a.public_lock_methods.map
          (fun lu => (lu.method_name, lu.is_public)))) =
      some [("lock".data, true)] ∧
    Chk.find_public_lock_methods C4input = [("lock".data, 3)] := by
  decide

/-- **C4 amended.** The scanners switch the access-specifier state exactly on
lines whose whitespace-trimmed text *starts with* an access-specifier label
(`public:`, `private:`, `protected:`); such a line is consumed by the switch
and not inspected for method signatures; every other line leaves the state
unchanged.  (`find_public_lock_methods` folds `protected:` into the private
state; `analyze_class` keeps it separate.) -/
theorem C4_access_startswith :
    (∀ (cc : List Char) (a : Access) (i : Nat) (l : List Char)
        (rest : List (List Char)),
      (Chk.fplm_access_update (pstrip l)).isSome = true →
        Chk.fplmAux cc a i (l :: rest) =
          Chk.fplmAux cc ((Chk.fplm_access_update (pstrip l)).getD a) (i + 1)
            rest) ∧
    (∀ (cc : List Char) (a : Access) (i : Nat) (l : List Char)
        (rest : List (List Char)),
      Chk.fplm_access_update (pstrip l) = none →
        Chk.fplmAux cc a i (l :: rest) =
          Chk.fplmLine cc a i (pstrip l) ++ Chk.fplmAux cc a (i + 1) rest) ∧
    (∀ ls : List Char,
      (Chk.fplm_access_update ls).isSome =
        ("public:".data.isPrefixOf ls || "private:".data.isPrefixOf ls ||
          "protected:".data.isPrefixOf ls)) ∧
    (∀ (cn fp cc : List Char) (a : Access) (i : Nat) (l : List Char)
        (rest : List (List Char)),
      (Ana.access_update (pstrip l)).isSome = true →
        Ana.analyzeAux cn fp cc a i (l :: rest) =
          Ana.analyzeAux cn fp cc ((Ana.access_update (pstrip l)).getD a)
            (i + 1) rest) ∧
    (∀ (cn fp cc : List Char) (a : Access) (i : Nat) (l : List Char)
        (rest : List (List Char)),
      Ana.access_update (pstrip l) = none →
        Ana.analyzeAux cn fp cc a i (l :: rest) =
          ((Ana.analyzeLine cn fp cc a i (pstrip l)).1 ++
              (Ana.analyzeAux cn fp cc a (i + 1) rest).1,
            (Ana.analyzeLine cn fp cc a i (pstrip l)).2 ++
              (Ana.analyzeAux cn fp cc a (i + 1) rest).2)) ∧
    (∀ ls : List Char,
      (Ana.access_update ls).isSome =
        ("public:".data.isPrefixOf ls || "private:".data.isPrefixOf ls ||
          "protected:".data.isPrefixOf ls)) := by
  refine ⟨?_, ?_, ?_, ?_, ?_, ?_⟩
  · intro cc a i l rest h
    rcases hu : Chk.fplm_access_update (pstrip l) with _ | a2
    · rw [hu] at h; simp at h
    · simp [Chk.fplmAux, hu]
  · intro cc a i l rest h
    simp [Chk.fplmAux, h]
  · intro ls
    unfold Chk.fplm_access_update
    by_cases h1 : "public:".data.isPrefixOf ls <;>
      by_cases h2 : "private:".data.isPrefixOf ls <;>
        by_cases h3 : "protected:".data.isPrefixOf ls <;>
          simp [h1, h2, h3]
  · intro cn fp cc a i l rest h
    rcases hu : Ana.access_update (pstrip l) with _ | a2
    · rw [hu] at h; simp at h
    · simp [Ana.analyzeAux, hu]
  · intro cn fp cc a i l rest h
    simp [Ana.analyzeAux, h]
  · intro ls
    unfold Ana.access_update
    by_cases h1 : "public:".data.isPrefixOf ls <;>
      by_cases h2 : "private:".data.isPrefixOf ls <;>
        by_cases h3 : "protected:".data.isPrefixOf ls <;>
          simp [h1, h2, h3]

/-- **C4 witness.** The amended rule applied at a concrete input: a line that
merely *starts with* `public:` switches the checker's scan to the public
state and contributes nothing itself. -/
theorem C4_access_startswith_witness :
    Chk.fplmAux [] Access.priv 5 ["  public: void f();".data] =
      Chk.fplmAux [] Access.pub 6 [] := by
  exact C4_access_startswith.1 [] Access.priv 5 "  public: void f();".data []
    (by decide)

/-! ## Claim C5: which matched identifiers are skipped -/

/-- Concrete class body for C5: class `widget` with a public method `Helper`
whose lock-search window matches a lock construct. -/
def C5input : List Char :=
  "class widget \x7b\npublic:\nvoid Helper();\nmu.lock();\n\x7d".data

set_option maxHeartbeats 1000000 in
/-- **C5 counterexample.**  In the enhanced checker the skip set is *not*
`{class name, destructor sigil, operator}`: the identifier `Helper` is none
of those for class `widget` and its window matches a lock construct, yet
`find_public_lock_methods` omits it (the checker instead skips every
uppercase-initial identifier, and never consults the class name at all). -/
theorem C5_counterexample :
    searchSig (pstrip "void Helper();".data) = some "Helper".data ∧
    "Helper".data ≠ "widget".data ∧
    "~".data.isPrefixOf "Helper".data = false ∧
    "Helper".data ≠ "operator".data ∧
    Chk.method_acquires_locks C5input "Helper".data 2 = true ∧
    Chk.find_public_lock_methods C5input = [("lock".data, 4)] := by
  decide

/-- **C5 amended.**  The analyzer (`analyze_threading_safety.py`) skips
exactly the matches whose identifier equals the class name, starts with `~`,
or is the literal `operator`; the enhanced checker
(`check_threading_patterns.py`) instead skips exactly the matches whose
identifier starts with `~`, is the literal `operator`, or begins with an
uppercase letter ("likely constructor") — the class name plays no part
there.  Every other matched identifier is classified as a method. -/
theorem C5_skip_sets :
    (∀ (cc : List Char) (i : Nat) (ls name : List Char),
      searchSig ls = some name →
        ("~".data.isPrefixOf name = true ∨ name = "operator".data ∨
            (name.headD ' ').isUpper = true) →
          Chk.fplmLine cc Access.pub i ls = []) ∧
    (∀ (cc : List Char) (i : Nat) (ls name : List Char),
      searchSig ls = some name →
        ¬("~".data.isPrefixOf name = true ∨ name = "operator".data ∨
            (name.headD ' ').isUpper = true) →
          Chk.fplmLine cc Access.pub i ls =
            if Chk.method_acquires_locks cc name i then [(name, i + 1)]
            else []) ∧
    (∀ (cn fp cc : List Char) (a : Access) (i : Nat) (ls name : List Char),
      searchSig ls = some name →
        (name = cn ∨ "~".data.isPrefixOf name = true ∨
            name = "operator".data) →
          Ana.analyzeLine cn fp cc a i ls = ([], [])) ∧
    (∀ (cn fp cc : List Char) (a : Access) (i : Nat) (ls name : List Char),
      searchSig ls = some name →
        ¬(name = cn ∨ "~".data.isPrefixOf name = true ∨
            name = "operator".data) →
          Ana.analyzeLine cn fp cc a i ls =
            ((if !(Ana.find_locks_in_method cc name).isEmpty &&
                  (a == Access.pub) then
                [⟨name, a == Access.pub, Ana.find_locks_in_method cc name,
                  i + 1, fp⟩]
              else []),
             (if (a == Access.priv) && "_unlocked".data.isSuffixOf name then
                [name]
              else []))) := by
  have boolFalse : ∀ b : Bool, b ≠ true → b = false := by
    intro b hb
    cases b
    · rfl
    · exact absurd rfl hb
  refine ⟨?_, ?_, ?_, ?_⟩
  · intro cc i ls name hsig h
    have hcond :
        ("~".data.isPrefixOf name || decide (name = "operator".data) ||
          (name.headD ' ').isUpper) = true := by
      rcases h with h | h | h
      · rw [h]; simp
      · simp [h]
      · rw [h]; simp
    unfold Chk.fplmLine
    rw [hsig]
    dsimp only
    rw [if_pos rfl, if_pos hcond]
  · intro cc i ls name hsig h
    push_neg at h
    obtain ⟨h1, h2, h3⟩ := h
    have hcond :
        ("~".data.isPrefixOf name || decide (name = "operator".data) ||
          (name.headD ' ').isUpper) = false := by
      rw [boolFalse _ h1, boolFalse _ h3]
      simp [h2]
    unfold Chk.fplmLine
    rw [hsig]
    dsimp only
    rw [if_pos rfl, if_neg (by rw [hcond]; exact Bool.false_ne_true)]
  · intro cn fp cc a i ls name hsig h
    have hcond :
        (decide (name = cn) || "~".data.isPrefixOf name ||
          decide (name = "operator".data)) = true := by
      rcases h with h | h | h
      · simp [h]
      · rw [h]; simp
      · simp [h]
    unfold Ana.analyzeLine
    rw [hsig]
    dsimp only
    rw [if_pos hcond]
  · intro cn fp cc a i ls name hsig h
    push_neg at h
    obtain ⟨h1, h2, h3⟩ := h
    have hcond :
        (decide (name = cn) || "~".data.isPrefixOf name ||
          decide (name = "operator".data)) = false := by
      rw [boolFalse _ h2]
      simp [h1, h3]
    unfold Ana.analyzeLine
    rw [hsig]
    dsimp only
    rw [if_neg (by rw [hcond]; exact Bool.false_ne_true)]

/-- **C5 witness.**  The amended rule applied at a concrete input: the
lowercase identifier `lock` on the `mu.lock();` line of `C5input` is not
skipped, and its window matches, so it is recorded. -/
theorem C5_skip_sets_witness :
    Chk.fplmLine C5input Access.pub 3 (pstrip "mu.lock();".data) =
      [("lock".data, 4)] := by
  rw [C5_skip_sets.2.1 C5input 3 (pstrip "mu.lock();".data) "lock".data
    (by decide) (by decide)]
  decide

/-! ## Claim C3: retention of class profiles -/

/-- `analyzeLine` contributes no public lock method when no lock pattern
matches the class body (`find_locks_in_method` ignores its method argument). -/
theorem analyzeLine_plm_empty (cn fp cc : List Char) (a : Access) (i : Nat)
    (ls : List Char) (h : Ana.find_locks_in_method cc [] = []) :
    (Ana.analyzeLine cn fp cc a i ls).1 = [] := by
  unfold Ana.analyzeLine
  rcases hs : searchSig ls with _ | name
  · rfl
  · dsimp only
    split
    · rfl
    · have hl : Ana.find_locks_in_method cc name = [] := h
      simp [hl]

/-- No line of the walk contributes a public lock method when no lock pattern
matches the class body. -/
theorem analyzeAux_plm_empty (cn fp cc : List Char)
    (h : Ana.find_locks_in_method cc [] = []) :
    ∀ (a : Access) (i : Nat) (ls : List (List Char)),
      (Ana.analyzeAux cn fp cc a i ls).1 = [] := by
  intro a i ls
  induction ls generalizing a i with
  | nil => rfl
  | cons l rest ih =>
    rcases hu : Ana.access_update (pstrip l) with _ | a2
    · simp [Ana.analyzeAux, hu, analyzeLine_plm_empty cn fp cc a i (pstrip l) h,
        ih]
    · simp [Ana.analyzeAux, hu, ih]

/-- **C3.** A scanned class region is retained in `self.classes` iff it has a
mutex member or a recorded public lock method; in particular a class with a
public method but no mutex-member match and no lock-acquisition match
anywhere in its body is never retained. -/
theorem C3_retention (cn fp cc : List Char) (off : Nat) :
    ((Ana.analyze_class cn fp cc off).isSome ↔
      (Ana.mutex_members cc ≠ [] ∨
        (Ana.analyzeAux cn fp cc Access.priv 0 (splitLines cc)).1 ≠ [])) ∧
    ((∃ l ∈ splitLines cc, (searchSig (pstrip l)).isSome) →
      Ana.mutex_members cc = [] →
      Ana.find_locks_in_method cc [] = [] →
      Ana.analyze_class cn fp cc off = none) := by
  constructor
  · unfold Ana.analyze_class
    by_cases hm : Ana.mutex_members cc = [] <;>
      by_cases hp : (Ana.analyzeAux cn fp cc Access.priv 0 (splitLines cc)).1
          = [] <;>
        simp [hm, hp, List.isEmpty_iff]
  · intro _hpub hm hlk
    unfold Ana.analyze_class
    have hp := analyzeAux_plm_empty cn fp cc hlk Access.priv 0 (splitLines cc)
    simp [hm, hp, List.isEmpty_iff]

/-- Concrete class body for the C3 witness: a public method, no mutex member,
no lock-acquisition match. -/
def C3input : List Char :=
  "class P \x7b\npublic:\nint getv() const;\nint v;\n\x7d".data

/-- **C3 witness.**  The retention rule applied at a concrete input: the
class is discarded. -/
theorem C3_retention_witness :
    Ana.analyze_class "P".data "p.h".data C3input 0 = none :=
  (C3_retention "P".data "p.h".data C3input 0).2 (by decide) (by decide)
    (by decide)

/-! ## Claim C6: manual unlock vs RAII window -/

/-- Membership characterization of the per-line issues of
`check_manual_lock_unlock`. -/
theorem mem_manualLineIssues (fp : List Char) (lines : List (List Char))
    (i : Nat) (l : List Char) (x : ThreadingIssue) :
    x ∈ Chk.manualLineIssues fp lines i l ↔
      (Chk.manual_unlock_searches.any (fun f => f (pstrip l)) = true ∧
        Chk.raiiSuppress lines i = false ∧ x = Chk.manual_issue fp (i + 1)) := by
  unfold Chk.manualLineIssues
  rw [List.mem_flatMap]
  constructor
  · rintro ⟨f, hf, hx⟩
    rw [List.mem_filter] at hf
    rcases hsupp : Chk.raiiSuppress lines i with _ | _
    · rw [hsupp] at hx
      simp only [Bool.false_eq_true, if_false, List.mem_singleton] at hx
      exact ⟨List.any_eq_true.mpr ⟨f, hf.1, hf.2⟩, rfl, hx⟩
    · rw [hsupp] at hx
      simp at hx
  · rintro ⟨hany, hsupp, hxeq⟩
    obtain ⟨f, hf, hp⟩ := List.any_eq_true.mp hany
    refine ⟨f, List.mem_filter.mpr ⟨hf, hp⟩, ?_⟩
    rw [hsupp]
    simp [hxeq]

/-- Membership characterization of the whole `check_manual_lock_unlock`
walk, with absolute line indices. -/
theorem mem_manualAux (fp : List Char) (lines : List (List Char))
    (x : ThreadingIssue) :
    ∀ (j : Nat) (ls : List (List Char)),
      x ∈ Chk.manualAux fp lines j ls ↔
        ∃ k l, ls[k]? = some l ∧ x ∈ Chk.manualLineIssues fp lines (j + k) l := by
  intro j ls
  induction ls generalizing j with
  | nil => simp [Chk.manualAux]
  | cons l rest ih =>
    rw [Chk.manualAux, List.mem_append, ih (j + 1)]
    constructor
    · rintro (hx | ⟨k, l2, hget, hx⟩)
      · exact ⟨0, l, by simp, by simpa using hx⟩
      · exact ⟨k + 1, l2, by simpa using hget, by
          have : j + 1 + k = j + (k + 1) := by omega
          rwa [this] at hx⟩
    · rintro ⟨k, l2, hget, hx⟩
      rcases k with _ | k
      · left
        simp only [List.getElem?_cons_zero, Option.some.injEq] at hget
        subst hget
        simpa using hx
      · right
        refine ⟨k, l2, by simpa using hget, ?_⟩
        have : j + (k + 1) = j + 1 + k := by omega
        rwa [this] at hx

/-- Concrete input for C6: a manual unlock at line index 0 and a lock-guard
construction at line index 10 — within ±10 lines of the unlock — with
inert filler between. -/
def C6lines : List (List Char) :=
  "mu.unlock();".data ::
    (List.replicate 9 "int x;".data ++
      ["std::lock_guard<std::mutex> g(mu);".data])

set_option maxHeartbeats 1000000 in
/-- **C6 counterexample.**  A RAII-guard construction appears within ±10
lines of the manual unlock (at offset +10, as the window membership over
indices 0..10 shows), yet the `MANUAL_LOCK_UNLOCK` error is still emitted:
the code's context slice `lines[i-10 : i+10]` covers only 9 lines *after*
the unlock, so the claimed "±10" window is wrong on the forward side. -/
theorem C6_counterexample :
    containsSub "std::lock_guard".data (joinNl (pySlice C6lines 0 11)) = true ∧
    Chk.check_manual_lock_unlock "f.cpp".data C6lines =
      [Chk.manual_issue "f.cpp".data 1] := by
  decide

/-- **C6 amended.**  For every line matching a manual unlock call, a
`MANUAL_LOCK_UNLOCK` Error is emitted at that line iff no text matching
`std::(lock_guard|unique_lock|shared_lock)` occurs in the joined window
`lines[max(0, i-10) : i+10]` — i.e. from 10 lines before through 9 lines
after the unlock (a textual mention suffices; no construction shape is
required). -/
theorem C6_manual_unlock_window (fp : List Char) (lines : List (List Char))
    (i : Nat) (l : List Char) (hget : lines[i]? = some l)
    (hhit : Chk.manual_unlock_searches.any (fun f => f (pstrip l)) = true) :
    ((∃ x ∈ Chk.check_manual_lock_unlock fp lines,
        x.rule_id = "MANUAL_LOCK_UNLOCK".data ∧ x.line_number = i + 1) ↔
      Chk.raiiSuppress lines i = false) := by
  unfold Chk.check_manual_lock_unlock
  constructor
  · rintro ⟨x, hx, _, hline⟩
    rw [mem_manualAux fp lines x 0 lines] at hx
    obtain ⟨k, l2, hget2, hx⟩ := hx
    rw [mem_manualLineIssues] at hx
    obtain ⟨_, hsupp, hxeq⟩ := hx
    have hk : k = i := by
      have hxl : x.line_number = 0 + k + 1 := by rw [hxeq]; rfl
      omega
    rwa [Nat.zero_add, hk] at hsupp
  · intro hsupp
    refine ⟨Chk.manual_issue fp (i + 1), ?_, rfl, rfl⟩
    rw [mem_manualAux fp lines _ 0 lines]
    exact ⟨i, l, hget, by
      rw [mem_manualLineIssues]
      exact ⟨hhit, by rwa [Nat.zero_add], by rw [Nat.zero_add]⟩⟩

/-- **C6 witness.**  The amended rule applied at a concrete input: a lone
manual unlock with no guard text anywhere is reported. -/
theorem C6_manual_unlock_window_witness :
    ∃ x ∈ Chk.check_manual_lock_unlock "g.cpp".data ["mu.unlock();".data],
      x.rule_id = "MANUAL_LOCK_UNLOCK".data ∧ x.line_number = 1 :=
  (C6_manual_unlock_window "g.cpp".data ["mu.unlock();".data] 0
    "mu.unlock();".data (by decide) (by decide)).mpr (by decide)

/-! ## Claim C7: PUBLIC_CALLS_PUBLIC fires on declarations -/

/-- A positive head test implies nonemptiness. -/
theorem headIs_ne_nil {p : Char → Bool} {l : List Char}
    (h : headIs p l = true) : l ≠ [] := by
  cases l with
  | nil => simp [headIs] at h
  | cons c cs => simp

/-- The head test only looks at the first element. -/
theorem headIs_append {p : Char → Bool} {l : List Char} (t : List Char)
    (h : l ≠ []) : headIs p (l ++ t) = headIs p l := by
  cases l with
  | nil => exact absurd rfl h
  | cons c cs => rfl

/-- `dropWhile` distributes over an append whose left part is not consumed
entirely. -/
theorem dropWhile_append_left {p : Char → Bool} (l t : List Char)
    (h : l.dropWhile p ≠ []) :
    (l ++ t).dropWhile p = l.dropWhile p ++ t := by
  induction l with
  | nil => exact absurd rfl h
  | cons c cs ih =>
    by_cases hc : p c
    · rw [List.dropWhile_cons, if_pos hc] at h
      rw [List.cons_append, List.dropWhile_cons, if_pos hc,
        List.dropWhile_cons, if_pos hc]
      exact ih h
    · rw [List.cons_append, List.dropWhile_cons, if_neg hc,
        List.dropWhile_cons, if_neg hc]
      rfl

/-- A successful `searchB` exhibits a matching suffix. -/
theorem searchB_exists {f : List Char → Bool} {s : List Char}
    (h : searchB f s = true) : ∃ sfx, sfx <:+ s ∧ f sfx = true := by
  induction s with
  | nil => exact ⟨[], List.suffix_refl [], h⟩
  | cons c rest ih =>
    rw [searchB, Bool.or_eq_true] at h
    rcases h with h | h
    · exact ⟨c :: rest, List.suffix_refl _, h⟩
    · obtain ⟨sfx, hs, hf⟩ := ih h
      exact ⟨sfx, hs.trans (List.suffix_cons c rest), hf⟩

/-- A matching suffix makes `searchB` succeed. -/
theorem searchB_suffix {f : List Char → Bool} {s sfx : List Char}
    (hsfx : sfx <:+ s) (hf : f sfx = true) : searchB f s = true := by
  induction s with
  | nil => rwa [List.suffix_nil.mp hsfx] at hf
  | cons c rest ih =>
    rw [searchB, Bool.or_eq_true]
    rcases List.suffix_cons_iff.mp hsfx with h | h
    · subst h; exact Or.inl hf
    · exact Or.inr (ih h)

/-- Stripping a line yields an infix of it. -/
theorem pstrip_within (l : List Char) : pstrip l <:+: l := by
  unfold pstrip
  have h1 : l.dropWhile isSpaceChar <:+ l := List.dropWhile_suffix _
  have h2 :
      ((l.dropWhile isSpaceChar).reverse.dropWhile isSpaceChar).reverse <+:
        l.dropWhile isSpaceChar := by
    obtain ⟨pre, hpre⟩ :=
      List.dropWhile_suffix (l := (l.dropWhile isSpaceChar).reverse)
        (p := isSpaceChar)
    refine ⟨pre.reverse, ?_⟩
    have := congrArg List.reverse hpre
    rwa [List.reverse_append, List.reverse_reverse] at this
  exact h2.isInfix.trans h1.isInfix

/-- `joinNl` peels a leading character off the first part. -/
theorem joinNl_cons_cons (c : Char) (hd : List Char) (tl : List (List Char)) :
    joinNl ((c :: hd) :: tl) = c :: joinNl (hd :: tl) := by
  cases tl <;> rfl

/-- `splitLines` never returns the empty list of parts. -/
theorem splitLines_ne_nil (cc : List Char) : splitLines cc ≠ [] := by
  cases cc with
  | nil => simp [splitLines]
  | cons c cs =>
    rw [splitLines]
    by_cases hc : c = '\n'
    · simp [hc]
    · rw [if_neg hc]
      rcases splitLines cs with _ | ⟨hd, tl⟩ <;> simp

/-- Joining the split lines restores the text. -/
theorem joinNl_splitLines (cc : List Char) : joinNl (splitLines cc) = cc := by
  induction cc with
  | nil => rfl
  | cons c cs ih =>
    rw [splitLines]
    by_cases hc : c = '\n'
    · subst hc
      rw [if_pos rfl]
      rcases hs : splitLines cs with _ | ⟨hd, tl⟩
      · exact absurd hs (splitLines_ne_nil cs)
      · show '\n' :: joinNl (hd :: tl) = '\n' :: cs
        rw [← hs, ih]
    · rw [if_neg hc]
      rcases hs : splitLines cs with _ | ⟨hd, tl⟩
      · exact absurd hs (splitLines_ne_nil cs)
      · rw [joinNl_cons_cons, ← hs, ih]

/-- Every part is an infix of the join. -/
theorem mem_joinNl_within (parts : List (List Char)) (l : List Char)
    (h : l ∈ parts) : l <:+: joinNl parts := by
  induction parts with
  | nil => simp at h
  | cons p ps ih =>
    rcases List.mem_cons.mp h with h | h
    · subst h
      cases ps with
      | nil => exact List.infix_refl _
      | cons q qs => exact (List.prefix_append l ('\n' :: joinNl (q :: qs))).isInfix
    · cases ps with
      | nil => simp at h
      | cons q qs =>
        refine (ih h).trans ?_
        have hsuf : joinNl (q :: qs) <:+ joinNl (p :: q :: qs) := by
          refine ⟨p ++ ['\n'], ?_⟩
          show p ++ ['\n'] ++ joinNl (q :: qs) = joinNl (p :: q :: qs)
          rw [List.append_assoc]
          rfl
        exact hsuf.isInfix

/-- Decomposition of a successful signature match: the capture is the maximal
word run and the tail matches. -/
theorem matchSigAt_parts {s n : List Char} (h : matchSigAt s = some n) :
    n = s.takeWhile isWordChar ∧ (s.takeWhile isWordChar) ≠ [] ∧
      sigTail (s.dropWhile isWordChar) = true := by
  unfold matchSigAt at h
  rw [List.span_eq_take_drop] at h
  dsimp only at h
  by_cases hc :
      (!(s.takeWhile isWordChar).isEmpty &&
        sigTail (s.dropWhile isWordChar)) = true
  · rw [if_pos hc] at h
    rw [Bool.and_eq_true] at hc
    obtain ⟨h1, h2⟩ := hc
    refine ⟨(Option.some.injEq _ _).mp h.symm, ?_, h2⟩
    intro hnil
    rw [hnil] at h1
    simp at h1
  · rw [if_neg hc] at h
    exact absurd h (by simp)

/-- A successful signature tail starts, after the leading spaces, with an
opening parenthesis. -/
theorem sigTail_head_paren {r1 : List Char} (h : sigTail r1 = true) :
    headIs (fun c => c = '(') (r1.dropWhile isSpaceChar) = true := by
  unfold sigTail at h
  split at h
  · rename_i r3 heq
    rw [heq]
    rfl
  · simp at h

/-- Dropping as many characters as the `takeWhile` prefix is `dropWhile`. -/
theorem drop_takeWhile_length (p : Char → Bool) (l : List Char) :
    l.drop (l.takeWhile p).length = l.dropWhile p := by
  induction l with
  | nil => rfl
  | cons c cs ih =>
    by_cases hc : p c <;>
      simp [List.takeWhile_cons, List.dropWhile_cons, hc, ih]

/-- A signature match at a position yields a call-pattern match for the
captured name at the same position. -/
theorem matchSigAt_call {s n : List Char} (h : matchSigAt s = some n) :
    Chk.matchCallAt n s = true := by
  obtain ⟨hn, hne, htail⟩ := matchSigAt_parts h
  subst hn
  unfold Chk.matchCallAt
  rw [Bool.and_eq_true]
  constructor
  · rw [List.isPrefixOf_iff_prefix]
    exact List.takeWhile_prefix _
  · rw [drop_takeWhile_length]
    exact sigTail_head_paren htail

/-- A successful `searchSig` yields a call-pattern `searchB` hit for the
captured name on the same line. -/
theorem searchSig_call {s n : List Char} (h : searchSig s = some n) :
    searchB (Chk.matchCallAt n) s = true := by
  induction s with
  | nil =>
    show Chk.matchCallAt n [] = true
    exact matchSigAt_call h
  | cons c rest ih =>
    unfold searchSig searchO at h
    rw [searchB, Bool.or_eq_true]
    rcases hm : matchSigAt (c :: rest) with _ | a
    · rw [hm] at h
      exact Or.inr (ih h)
    · rw [hm] at h
      obtain rfl : a = n := (Option.some.injEq _ _).mp h
      exact Or.inl (matchSigAt_call hm)

/-- The call-pattern matcher is stable under extending the input on the
right. -/
theorem matchCallAt_append {n s : List Char} (t : List Char)
    (h : Chk.matchCallAt n s = true) : Chk.matchCallAt n (s ++ t) = true := by
  unfold Chk.matchCallAt at h ⊢
  rw [Bool.and_eq_true] at h
  obtain ⟨h1, h2⟩ := h
  rw [Bool.and_eq_true]
  have hpre := List.isPrefixOf_iff_prefix.mp h1
  constructor
  · rw [List.isPrefixOf_iff_prefix]
    exact hpre.trans (List.prefix_append s t)
  · rw [List.drop_append_eq_append_drop,
      Nat.sub_eq_zero_of_le hpre.length_le, List.drop_zero]
    rw [dropWhile_append_left _ _ (headIs_ne_nil h2),
      headIs_append _ (headIs_ne_nil h2)]
    exact h2

/-- A call-pattern `searchB` hit on an infix lifts to the whole text. -/
theorem searchB_callAt_within {n s' s : List Char} (hinf : s' <:+: s)
    (h : searchB (Chk.matchCallAt n) s' = true) :
    searchB (Chk.matchCallAt n) s = true := by
  obtain ⟨pre, post, rfl⟩ := hinf
  obtain ⟨sfx, hsfx, hf⟩ := searchB_exists h
  have hmatch : Chk.matchCallAt n (sfx ++ post) = true := matchCallAt_append post hf
  have hsuf : sfx ++ post <:+ pre ++ s' ++ post := by
    obtain ⟨q, hq⟩ := hsfx
    refine ⟨pre ++ q, ?_⟩
    rw [← List.append_assoc, List.append_assoc pre q sfx, hq]
  exact searchB_suffix hsuf hmatch

/-- A method recorded by the per-line step was captured by the signature
matcher on that line. -/
theorem fplmLine_name {cc : List Char} {a : Access} {i : Nat} {ls n : List Char}
    {ln : Nat} (h : (n, ln) ∈ Chk.fplmLine cc a i ls) :
    searchSig ls = some n := by
  unfold Chk.fplmLine at h
  by_cases ha : a = Access.pub
  · rw [if_pos ha] at h
    rcases hs : searchSig ls with _ | name
    · rw [hs] at h
      simp at h
    · rw [hs] at h
      dsimp only at h
      split at h
      · simp at h
      · split at h
        · rw [List.mem_singleton, Prod.mk.injEq] at h
          rw [h.1]
        · simp at h
  · rw [if_neg ha] at h
    simp at h

/-- A method recorded by the walk was captured by the signature matcher on
some (stripped) line of the walked list. -/
theorem fplmAux_mem {cc : List Char} {n : List Char} {ln : Nat} :
    ∀ {a : Access} {i : Nat} {ls : List (List Char)},
      (n, ln) ∈ Chk.fplmAux cc a i ls →
        ∃ l ∈ ls, searchSig (pstrip l) = some n := by
  intro a i ls
  induction ls generalizing a i with
  | nil => intro h; simp [Chk.fplmAux] at h
  | cons l rest ih =>
    intro h
    rcases hu : Chk.fplm_access_update (pstrip l) with _ | a2
    · rw [Chk.fplmAux, hu] at h
      dsimp only at h
      rcases List.mem_append.mp h with h | h
      · exact ⟨l, List.mem_cons_self l rest, fplmLine_name h⟩
      · obtain ⟨l2, hl2, hsig⟩ := ih h
        exact ⟨l2, List.mem_cons_of_mem l hl2, hsig⟩
    · rw [Chk.fplmAux, hu] at h
      dsimp only at h
      obtain ⟨l2, hl2, hsig⟩ := ih h
      exact ⟨l2, List.mem_cons_of_mem l hl2, hsig⟩

/-- Concrete class body for C7: two public lock methods `foo` and `bar`, each
of whose names occurs exactly once in the body — at its own declaration — so
neither is invoked from anywhere, let alone from the other's vicinity. -/
def C7input : List Char :=
  "class C \x7b\npublic:\nvoid foo();\nvoid bar();\nmu.lock();\n\x7d".data

set_option maxHeartbeats 2000000 in
/-- **C7 counterexample.**  `foo` and `bar` each occur exactly once in the
class body (their own declarations), so the body contains no invocation of
either from within the other's vicinity; yet `check_public_method_calls`
emits `PUBLIC_CALLS_PUBLIC` warnings for both ordered pairs, because the
search `rf'{other}\s*\('` over the whole class body is satisfied by the
other method's own declaration. -/
theorem C7_counterexample :
    countSub "foo".data C7input = 1 ∧
    countSub "bar".data C7input = 1 ∧
    ("foo".data, 3) ∈ Chk.find_public_lock_methods C7input ∧
    ("bar".data, 4) ∈ Chk.find_public_lock_methods C7input ∧
    Chk.pcp_issue "f.h".data 3 "foo".data "bar".data ∈
      Chk.check_public_method_calls "f.h".data C7input
        (Chk.find_public_lock_methods C7input) ∧
    Chk.pcp_issue "f.h".data 4 "bar".data "foo".data ∈
      Chk.check_public_method_calls "f.h".data C7input
        (Chk.find_public_lock_methods C7input) := by
  decide

/-- **C7 amended.**  A `PUBLIC_CALLS_PUBLIC` warning for public-lock-method
`m` naming `n` is emitted whenever `n\s*\(` occurs anywhere in the class
body — and since every recorded public lock method's own signature contains
its name followed by optional whitespace and `(`, *any* two recorded public
lock methods with distinct names always produce the warning for both ordered
pairs, regardless of whether either is actually invoked. -/
theorem C7_pcp_always_fires (fp cc m n : List Char) (lm ln : Nat)
    (h1 : (m, lm) ∈ Chk.find_public_lock_methods cc)
    (h2 : (n, ln) ∈ Chk.find_public_lock_methods cc)
    (hne : n ≠ m) :
    Chk.pcp_issue fp lm m n ∈
      Chk.check_public_method_calls fp cc
        (Chk.find_public_lock_methods cc) := by
  have h2' : (n, ln) ∈ Chk.fplmAux cc Access.priv 0 (splitLines cc) := h2
  obtain ⟨l, hl, hsig⟩ := fplmAux_mem h2'
  have hline : searchB (Chk.matchCallAt n) (pstrip l) = true := searchSig_call hsig
  have hinf : pstrip l <:+: cc := by
    refine (pstrip_within l).trans ?_
    rw [← joinNl_splitLines cc]
    exact mem_joinNl_within (splitLines cc) l hl
  have hcall : searchB (Chk.matchCallAt n) cc = true :=
    searchB_callAt_within hinf hline
  unfold Chk.check_public_method_calls
  rw [List.mem_flatMap]
  refine ⟨(m, lm), h1, ?_⟩
  rw [List.mem_flatMap]
  refine ⟨(n, ln), h2, ?_⟩
  rw [if_pos hne, if_pos hcall]
  exact List.mem_singleton.mpr rfl

/-- **C7 witness.**  The amended rule applied at a concrete input: `bar` is
never invoked in `C7input`, yet `foo`'s warning naming `bar` is emitted. -/
theorem C7_pcp_always_fires_witness :
    Chk.pcp_issue "w.h".data 3 "foo".data "bar".data ∈
      Chk.check_public_method_calls "w.h".data C7input
        (Chk.find_public_lock_methods C7input) :=
  C7_pcp_always_fires "w.h".data C7input "foo".data "bar".data 3 4
    (by decide) (by decide) (by decide)
